import Mathlib

/-!
# Verification of the shallow-copy generator (`gen.go`)

A shallow embedding of the shallow-copy code generator: the marker check
(`enabledOnType`), the eligibility classifier (`shouldBeCopied`,
`hasShallowCopyMethod`), the per-type step of `Generate` (marker gate,
classification, struct-field extraction), and the emission step
(`jen` rendering of the `ShallowCopy` methods followed by the
`format.Source` gate and `writeOut`).

The type model follows the specification's view of `go/types`:
a *Named* type wraps one underlying type (possibly another Named type,
forming an alias chain that terminates in a non-Named variant) and carries
the list of its directly declared methods; *Pointer*, *Struct*, *Basic*
and the *Invalid* sentinel are the other variants.  `Underlying()` of a
non-Named variant is the type itself (the fixed point the classifier's
loop detects).  Struct fields are represented by their names in
declaration order, which is all the generator ever reads from them.
-/

/-- A method attached to a type's method set, as inspected by
`hasShallowCopyMethod`: its name, parameter count and result count. -/
structure Method where
  name : String
  nparams : Nat
  nresults : Nat
deriving DecidableEq

/-- The resolved structural description of a type (`types.Type`),
restricted to the variants the generator distinguishes. -/
inductive GoType where
  | basic (name : String)
  | struct (fields : List String)
  | pointer (pointee : GoType)
  | named (name : String) (underlying : GoType) (methods : List Method)
  | invalid
deriving DecidableEq

/-- `types.Type.Underlying()`: one link of the alias chain.  A Named type
reports its declared underlying type; every other variant reports itself
(the fixed point). -/
def GoType.underlying : GoType → GoType
  | .named _ u _ => u
  | t => t

/-- The `_, isStruct := t.(*types.Struct)` test. -/
def GoType.isStruct : GoType → Bool
  | .struct _ => true
  | _ => false

/-- The `_, isBasic := t.(*types.Basic)` test. -/
def GoType.isBasic : GoType → Bool
  | .basic _ => true
  | _ => false

/-- The methods directly declared on a type: only Named types declare
methods. -/
def GoType.declaredMethods : GoType → List Method
  | .named _ _ ms => ms
  | _ => []

/-- The type itself followed by everything reached by successive
underlying-type links (the alias chain down to the terminal non-Named
variant). -/
def GoType.chainMembers : GoType → List GoType
  | .named n u ms => .named n u ms :: u.chainMembers
  | t => [t]

/-- `ast.IsExported`: the first character of the name is an upper-case
letter (restricted here to the ASCII identifiers used throughout). -/
def isExported (name : String) : Bool :=
  match name.data with
  | [] => false
  | c :: _ => c.isUpper

/-- Errors recorded through `root.AddError` along the modelled paths. -/
inductive GenError where
  | unknownType (name : String)
  | notAStruct (name : String)
  | formatFailed (msg : String)
deriving DecidableEq

/-- `types.LookupFieldOrMethod(t, true, pkg, "ShallowCopy")` restricted to
index depth exactly one: only a method declared directly on a Named type
qualifies; promoted (embedded) methods have a longer index and are ignored
by the caller, and non-Named variants declare no methods.  (Struct fields
named `ShallowCopy` are not modelled: the model's struct fields carry no
types.) -/
def lookupShallowCopy : GoType → Option Method
  | .named _ _ ms => ms.find? (fun m => m.name == "ShallowCopy")
  | _ => none

/-- `hasShallowCopyMethod` (gen.go:196-216): the type directly declares a
`ShallowCopy` method with zero parameters and exactly one result. -/
def hasShallowCopyMethod (t : GoType) : Bool :=
  match lookupShallowCopy t with
  | none => false
  | some m => m.nparams == 0 && m.nresults == 1

/-- The alias-chain loop of `shouldBeCopied` (gen.go:177-193), with an
explicit iteration budget.  One call models one evaluation of the loop
condition `underlyingType != lastType` followed (when the condition holds)
by one execution of the loop body; the equality exit also performs the
final `_, isStruct := lastType.(*types.Struct)` check of gen.go:192-193.
`none` means the budget was exhausted before the loop exited;
`aliasWalk_terminates` shows a budget of 2 always suffices. -/
def aliasWalkFuel : Nat → GoType → GoType → Option Bool
  | 0, _, _ => none
  | fuel + 1, lastType, underlyingType =>
    if underlyingType = lastType then some lastType.isStruct
    else if hasShallowCopyMethod underlyingType then some true
    else if !underlyingType.isBasic then some true
    else aliasWalkFuel fuel underlyingType underlyingType.underlying

/-- `shouldBeCopied` (gen.go:153-194).  Inputs: the declaration's name and
the result of `pkg.TypesInfo.TypeOf(info.RawSpec.Name)`.  Output: the
errors recorded via `pkg.AddError` together with the boolean verdict;
`none` models the panic of the unchecked assertion
`typeInfo.(*types.Named)` on a resolved type that is neither Named nor
Invalid (unreachable for ordinary type declarations). -/
def shouldBeCopied (name : String) (resolved : GoType) : Option (List GenError × Bool) :=
  if !isExported name then some ([], false)
  else if resolved = .invalid then some ([.unknownType name], false)
  else
    match resolved with
    | .named n u ms =>
      match u with
      | .pointer p =>
        -- gen.go:166-168: `typeInfo = asPtr` keeps the *pointer* itself
        -- (not the pointee) as the working type; a pointer is not Named,
        -- so the whole `isNamed` block is skipped and the function falls
        -- through to the final struct test on `lastType`, the pointer.
        some ([], GoType.isStruct (.pointer p))
      | _ =>
        -- gen.go:171-189: the working type is Named; check for a manual
        -- ShallowCopy on it, then walk the alias chain.  The termination
        -- theorem `aliasWalk_terminates` shows fuel 2 always returns
        -- `some`, so the default of `getD` is never taken.
        let t : GoType := .named n u ms
        some ([], if hasShallowCopyMethod t then true
                  else (aliasWalkFuel 2 t t.underlying).getD false)
    | _ => none

/-- `enabledOnType` (gen.go:46-52): the value of the
`shallowcopy:generate` marker if present, `false` when absent. -/
def enabledOnType (marker : Option Bool) : Bool :=
  match marker with
  | some v => v
  | none => false

/-- `markers.TypeInfo` as used by `Generate`: the declaration's name, the
marker value (if the `shallowcopy:generate` marker is attached) and the
resolved type of the declaration. -/
structure TypeInfo where
  name : String
  marker : Option Bool
  resolved : GoType
deriving DecidableEq

/-- `copyStructs` (gen.go:23-26): one emission request — a type name and
its field names in declaration order. -/
structure copyStructs where
  StructName : String
  Fields : List String
deriving DecidableEq

/-- The gates `Generate` consults for one type, in evaluation order:
the marker gate (`enabledOnType`, gen.go:68) and the export gate (the
first statement of `shouldBeCopied`, gen.go:154). -/
inductive CheckStep where
  | markerCheck
  | exportCheck
deriving DecidableEq

/-- Outcome of the per-type body of `Generate` for one declaration: the
gates consulted in order, the errors recorded, and the emission request
produced (if any). -/
structure ProcResult where
  checks : List CheckStep
  errors : List GenError
  spec : Option copyStructs
deriving DecidableEq

/-- The body of the `markers.EachType` callback in `Generate`
(gen.go:66-101) for one type declaration: consult the marker, classify,
re-resolve (recording `unknown type` for an Invalid resolution, without
returning), require a Struct one underlying link down, and extract the
field names in declaration order (gen.go:94-98).  `none` models the panic
path of `shouldBeCopied`. -/
def generateType (info : TypeInfo) : Option ProcResult :=
  if !enabledOnType info.marker then some ⟨[.markerCheck], [], none⟩
  else
    match shouldBeCopied info.name info.resolved with
    | none => none
    | some (errs, false) => some ⟨[.markerCheck, .exportCheck], errs, none⟩
    | some (errs, true) =>
      let errs' := errs ++ (if info.resolved = .invalid then [.unknownType info.name] else [])
      match info.resolved.underlying with
      | .struct fields =>
        some ⟨[.markerCheck, .exportCheck], errs', some ⟨info.name, fields⟩⟩
      | _ =>
        some ⟨[.markerCheck, .exportCheck], errs' ++ [.notAStruct info.name], none⟩

/-- `a` is consulted strictly before `b` in the recorded gate order. -/
def checkedBefore (l : List CheckStep) (a b : CheckStep) : Bool :=
  match l with
  | [] => false
  | c :: rest => if c = a then rest.contains b
                 else if c = b then false
                 else checkedBefore rest a b

/-- Well-formedness of a resolved type as the Go type system guarantees
it: method names on any Named type are pairwise distinct (a type cannot
declare two methods of the same name), and a Named type whose underlying
type is a pointer declares no methods at all (Go forbids methods whose
receiver base type is a pointer type). -/
def noDupNames : List Method → Bool
  | [] => true
  | m :: rest => rest.all (fun m' => !(m'.name == m.name)) && noDupNames rest

/-- See `noDupNames`: the Go-enforced constraints on a resolved type. -/
def wfGo : GoType → Bool
  | .named _ u ms =>
    noDupNames ms &&
    (match u with | .pointer _ => ms.isEmpty | _ => true) &&
    wfGo u
  | .pointer p => wfGo p
  | _ => true

/-- A type directly declares a `ShallowCopy` method with zero parameters
and exactly one result. -/
def declaresQualifyingShallowCopy (t : GoType) : Prop :=
  ∃ m ∈ t.declaredMethods, m.name = "ShallowCopy" ∧ m.nparams = 0 ∧ m.nresults = 1

/-!
## Emission (gen.go:106-141)

`Generate` builds one `jen` file per package: for each collected
`copyStructs` a value-receiver method returning a composite literal built
through `jen.DictFunc` (gen.go:116-120).  `jen.Dict` is a Go map, so the
entries reach the renderer in an arbitrary iteration order; jennifer
renders a `Dict` with its entries sorted by the rendered key string (here
the field name), which is what makes the output reproducible.  The
iteration order is therefore an explicit parameter of the model
(`iterKeys`, some permutation of the field list), and rendering sorts it.
The rendered text below abbreviates jennifer's exact whitespace but keeps
the content and order of every emitted token.
-/

/-- Lexicographic comparison of character sequences, the order Go's
`string` comparison induces (UTF-8 byte order coincides with code-point
order). -/
def lexLe : List Char → List Char → Bool
  | [], _ => true
  | _ :: _, [] => false
  | a :: as, b :: bs =>
    if a.toNat < b.toNat then true
    else if b.toNat < a.toNat then false
    else lexLe as bs

/-- Go's `<=` on strings. -/
def strLe (a b : String) : Bool := lexLe a.data b.data

/-- One insertion step of the key sort. -/
def insertKey (x : String) : List String → List String
  | [] => [x]
  | y :: ys => if strLe x y then x :: y :: ys else y :: insertKey x ys

/-- Sorting of the dict keys performed by jennifer when rendering a
`jen.Dict` (lexicographic on the rendered key, i.e. the field name). -/
def sortKeys : List String → List String
  | [] => []
  | x :: xs => insertKey x (sortKeys xs)

/-- The `key: value` entries of the rendered composite literal, in
rendered (sorted) order: field `f` maps to `o.f` (gen.go:117-119). -/
def renderDictEntries (iterKeys : List String) : String :=
  String.intercalate ", " ((sortKeys iterKeys).map (fun f => f ++ ": o." ++ f))

/-- One generated method (gen.go:110-122): a value receiver `o`, no
parameters, one result of the receiver type, returning a composite
literal keyed by field name. -/
def emitMethod (s : copyStructs) (iterKeys : List String) : String :=
  "func (o " ++ s.StructName ++ ") ShallowCopy() " ++ s.StructName ++
    " \x7b\n\treturn " ++ s.StructName ++ "\x7b" ++ renderDictEntries iterKeys ++
    "\x7d\n\x7d\n"

/-- The concatenated text of the generated file for one package: header
plus the methods of every collected `copyStructs`, in collection order
(`structs` is a slice, so its order is deterministic); `iters` carries the
map-iteration order of each method's dict. -/
def emitFile (pkgName : String) (structs : List copyStructs)
    (iters : List (List String)) : String :=
  "package " ++ pkgName ++ "\n\n" ++
    String.join (List.zipWith emitMethod structs iters)

/-- Result of the emission step for one package: recorded errors and the
bytes handed to `writeOut` (if any). -/
structure UnitResult where
  errors : List GenError
  output : Option String
deriving DecidableEq

/-- The emission tail of `Generate` (gen.go:106-141): nothing is emitted
for an empty batch; otherwise the rendered text passes through the
`format.Source` gate (`fmt`, the external formatter/parser, a black box:
`Except.error` carries its error value).  On failure the error is recorded
via `root.AddError` unchanged and the function returns — nothing is
written (gen.go:133-138); on success the formatted bytes go to `writeOut`.
(jennifer's `Render` also formats internally; its failure path,
gen.go:126-131, is the same `AddError`-and-return shape and is subsumed by
the single `fmt` gate.) -/
def generateUnit (fmt : String → Except String String) (pkgName : String)
    (structs : List copyStructs) (iters : List (List String)) : UnitResult :=
  if structs.isEmpty then ⟨[], none⟩
  else
    match fmt (emitFile pkgName structs iters) with
    | .error e => ⟨[.formatFailed e], none⟩
    | .ok out => ⟨[], some out⟩

/-- Decidable substring test, used to state that a diagnostic does not
contain the raw generated text. -/
def strContains (hay needle : String) : Bool :=
  (List.range (hay.data.length + 1)).any
    (fun i => needle.data.isPrefixOf (hay.data.drop i))

-- Sanity checks of the embedding on concrete inputs.
example : shouldBeCopied "User" (.named "User" (.struct ["ID", "Name"]) []) =
    some ([], true) := by decide
example : shouldBeCopied "user" (.named "user" (.struct ["ID"]) []) =
    some ([], false) := by decide
example : shouldBeCopied "P" (.named "P" (.pointer (.struct ["X"])) []) =
    some ([], false) := by decide
example : shouldBeCopied "Count" (.named "Count" (.basic "int") []) =
    some ([], false) := by decide
example : shouldBeCopied "Count" (.named "Count" (.basic "int") [⟨"ShallowCopy", 0, 1⟩]) =
    some ([], true) := by decide
example : shouldBeCopied "Bad" .invalid = some ([.unknownType "Bad"], false) := by decide
example : generateType ⟨"User", some true, .named "User" (.struct ["ID", "Name"]) []⟩ =
    some ⟨[.markerCheck, .exportCheck], [], some ⟨"User", ["ID", "Name"]⟩⟩ := by decide
example : generateType ⟨"User", none, .named "User" (.struct ["ID"]) []⟩ =
    some ⟨[.markerCheck], [], none⟩ := by decide
example : emitMethod ⟨"User", ["ID", "Name"]⟩ ["Name", "ID"] =
    "func (o User) ShallowCopy() User \x7b\n\treturn User\x7bID: o.ID, Name: o.Name\x7d\n\x7d\n" := by
  decide
example : sortKeys ["B", "A"] = ["A", "B"] := by decide
example : strContains "abcdef" "cde" = true := by decide
example : strContains "abcdef" "cdf" = false := by decide

/-!
## Order lemmas for the key sort

`lexLe` is a total preorder with antisymmetry, so sorting a list of keys
yields the same result for any two permutations of the same key multiset:
exactly the property that makes jennifer's sorted `Dict` rendering
deterministic despite the Go map's arbitrary iteration order.
-/

theorem char_eq_of_toNat_eq {a b : Char} (h : a.toNat = b.toNat) : a = b :=
  Char.ext (UInt32.eq_of_toBitVec_eq (BitVec.eq_of_toNat_eq h))

theorem lexLe_cons_iff {a b : Char} {as bs : List Char} :
    lexLe (a :: as) (b :: bs) = true ↔
      a.toNat < b.toNat ∨ (a.toNat = b.toNat ∧ lexLe as bs = true) := by
  by_cases hab : a.toNat < b.toNat
  · simp [lexLe, hab]
  · by_cases hba : b.toNat < a.toNat
    · have hne : ¬ a.toNat = b.toNat := by omega
      simp [lexLe, hab, hba, hne]
    · have heq : a.toNat = b.toNat := by omega
      simp [lexLe, hab, hba, heq]

theorem lexLe_total : ∀ as bs : List Char, lexLe as bs = true ∨ lexLe bs as = true
  | [], _ => Or.inl rfl
  | _ :: _, [] => Or.inr rfl
  | a :: as, b :: bs => by
    rw [lexLe_cons_iff, lexLe_cons_iff]
    rcases Nat.lt_trichotomy a.toNat b.toNat with h | h | h
    · exact Or.inl (Or.inl h)
    · rcases lexLe_total as bs with h' | h'
      · exact Or.inl (Or.inr ⟨h, h'⟩)
      · exact Or.inr (Or.inr ⟨h.symm, h'⟩)
    · exact Or.inr (Or.inl h)

theorem lexLe_antisymm : ∀ as bs : List Char,
    lexLe as bs = true → lexLe bs as = true → as = bs
  | [], [], _, _ => rfl
  | [], _ :: _, _, h₂ => by simp [lexLe] at h₂
  | _ :: _, [], h₁, _ => by simp [lexLe] at h₁
  | a :: as, b :: bs, h₁, h₂ => by
    rw [lexLe_cons_iff] at h₁ h₂
    rcases h₁ with h₁ | ⟨e₁, t₁⟩
    · rcases h₂ with h₂ | ⟨e₂, t₂⟩
      · exact (by omega : False).elim
      · exact (by omega : False).elim
    · rcases h₂ with h₂ | ⟨e₂, t₂⟩
      · exact (by omega : False).elim
      · rw [char_eq_of_toNat_eq e₁, lexLe_antisymm as bs t₁ t₂]

theorem lexLe_trans : ∀ as bs cs : List Char,
    lexLe as bs = true → lexLe bs cs = true → lexLe as cs = true
  | [], _, _, _, _ => rfl
  | _ :: _, [], _, h₁, _ => by simp [lexLe] at h₁
  | _ :: _, _ :: _, [], _, h₂ => by simp [lexLe] at h₂
  | a :: as, b :: bs, c :: cs, h₁, h₂ => by
    rw [lexLe_cons_iff] at h₁ h₂ ⊢
    rcases h₁ with h₁ | ⟨e₁, t₁⟩
    · rcases h₂ with h₂ | ⟨e₂, t₂⟩
      · exact Or.inl (by omega)
      · exact Or.inl (by omega)
    · rcases h₂ with h₂ | ⟨e₂, t₂⟩
      · exact Or.inl (by omega)
      · exact Or.inr ⟨by omega, lexLe_trans as bs cs t₁ t₂⟩

theorem strLe_total (a b : String) : strLe a b = true ∨ strLe b a = true :=
  lexLe_total a.data b.data

theorem strLe_antisymm : ∀ {a b : String}, strLe a b = true → strLe b a = true → a = b
  | ⟨as⟩, ⟨bs⟩, h₁, h₂ => congrArg String.mk (lexLe_antisymm as bs h₁ h₂)

theorem strLe_trans {a b c : String} (h₁ : strLe a b = true) (h₂ : strLe b c = true) :
    strLe a c = true :=
  lexLe_trans a.data b.data c.data h₁ h₂

theorem insertKey_perm (x : String) : ∀ l : List String,
    List.Perm (insertKey x l) (x :: l)
  | [] => List.Perm.refl _
  | y :: ys => by
    unfold insertKey
    by_cases h : strLe x y = true
    · rw [if_pos h]
    · rw [if_neg h]
      exact ((insertKey_perm x ys).cons y).trans (List.Perm.swap x y ys)

theorem sortKeys_perm : ∀ l : List String, List.Perm (sortKeys l) l
  | [] => List.Perm.refl _
  | x :: xs => (insertKey_perm x (sortKeys xs)).trans ((sortKeys_perm xs).cons x)

theorem insertKey_sorted (x : String) : ∀ l : List String,
    l.Pairwise (fun a b => strLe a b = true) →
    (insertKey x l).Pairwise (fun a b => strLe a b = true)
  | [], _ => by simp [insertKey]
  | y :: ys, h => by
    rw [List.pairwise_cons] at h
    unfold insertKey
    by_cases hxy : strLe x y = true
    · rw [if_pos hxy, List.pairwise_cons]
      refine ⟨?_, List.pairwise_cons.mpr h⟩
      intro b hb
      rcases List.mem_cons.mp hb with rfl | hb
      · exact hxy
      · exact strLe_trans hxy (h.1 b hb)
    · rw [if_neg hxy, List.pairwise_cons]
      refine ⟨?_, insertKey_sorted x ys h.2⟩
      intro b hb
      rcases List.mem_cons.mp ((insertKey_perm x ys).mem_iff.mp hb) with hbx | hb'
      · rw [hbx]
        exact (strLe_total x y).resolve_left hxy
      · exact h.1 b hb'

theorem sortKeys_sorted : ∀ l : List String,
    (sortKeys l).Pairwise (fun a b => strLe a b = true)
  | [] => List.Pairwise.nil
  | x :: xs => insertKey_sorted x _ (sortKeys_sorted xs)

theorem sortKeys_eq_of_perm {l₁ l₂ : List String} (h : List.Perm l₁ l₂) :
    sortKeys l₁ = sortKeys l₂ := by
  haveI : IsAntisymm String (fun a b => strLe a b = true) :=
    ⟨fun _ _ h₁ h₂ => strLe_antisymm h₁ h₂⟩
  exact List.eq_of_perm_of_sorted
    ((sortKeys_perm l₁).trans (h.trans (sortKeys_perm l₂).symm))
    (sortKeys_sorted l₁) (sortKeys_sorted l₂)

/-!
## Lemmas about the classifier
-/

theorem aliasWalkFuel_succ (fuel : Nat) (lastType u : GoType) :
    aliasWalkFuel (fuel + 1) lastType u =
      if u = lastType then some lastType.isStruct
      else if hasShallowCopyMethod u then some true
      else if !u.isBasic then some true
      else aliasWalkFuel fuel u u.underlying := rfl

/-- No type equals the Named type it is the underlying type of (alias
chains are well-founded as data). -/
theorem ne_named_self (n : String) (ms : List Method) (u : GoType) :
    u ≠ GoType.named n u ms := by
  intro h
  have hs := congrArg sizeOf h
  simp [GoType.named.sizeOf_spec] at hs
  omega

/-- Closed form of the loop at the budget of two iterations: one
comparison plus one body execution always settles it, because a body that
neither returns nor exits leaves a Basic type, whose underlying type is
itself. -/
theorem aliasWalkFuel_two (lastType u : GoType) :
    aliasWalkFuel 2 lastType u =
      if u = lastType then some lastType.isStruct
      else if hasShallowCopyMethod u then some true
      else if !u.isBasic then some true
      else some false := by
  show aliasWalkFuel (1 + 1) lastType u = _
  rw [aliasWalkFuel_succ]
  by_cases h1 : u = lastType
  · simp [h1]
  · rw [if_neg h1, if_neg h1]
    by_cases h2 : hasShallowCopyMethod u = true
    · simp [h2]
    · simp only [h2, if_false, Bool.false_eq_true]
      by_cases h3 : u.isBasic = true
      · cases u with
        | basic b =>
          simp only [GoType.isBasic, Bool.not_true, if_false, Bool.false_eq_true]
          show aliasWalkFuel (0 + 1) (GoType.basic b) (GoType.basic b).underlying = _
          rw [aliasWalkFuel_succ]
          simp [GoType.underlying, GoType.isStruct]
        | «struct» fs => simp [GoType.isBasic] at h3
        | pointer p => simp [GoType.isBasic] at h3
        | named nm un mss => simp [GoType.isBasic] at h3
        | invalid => simp [GoType.isBasic] at h3
      · simp [h3]

theorem aliasWalkFuel_ge2 (k : Nat) (lastType u : GoType) :
    aliasWalkFuel (k + 2) lastType u = aliasWalkFuel 2 lastType u := by
  rw [aliasWalkFuel_two]
  show aliasWalkFuel (k + 1 + 1) lastType u = _
  rw [aliasWalkFuel_succ]
  by_cases h1 : u = lastType
  · simp [h1]
  · rw [if_neg h1, if_neg h1]
    by_cases h2 : hasShallowCopyMethod u = true
    · simp [h2]
    · simp only [h2, if_false, Bool.false_eq_true]
      by_cases h3 : u.isBasic = true
      · cases u with
        | basic b =>
          simp only [GoType.isBasic, Bool.not_true, if_false, Bool.false_eq_true]
          rw [aliasWalkFuel_succ]
          simp [GoType.underlying, GoType.isStruct]
        | «struct» fs => simp [GoType.isBasic] at h3
        | pointer p => simp [GoType.isBasic] at h3
        | named nm un mss => simp [GoType.isBasic] at h3
        | invalid => simp [GoType.isBasic] at h3
      · simp [h3]

/-- `find?` returns the unique method of the reserved name when the
method names are pairwise distinct. -/
theorem find_shallowCopy_of_mem (ms : List Method) (m : Method)
    (hnd : noDupNames ms = true) (hm : m ∈ ms) (hname : m.name = "ShallowCopy") :
    ms.find? (fun m' => m'.name == "ShallowCopy") = some m := by
  induction ms with
  | nil => cases hm
  | cons x xs ih =>
    unfold noDupNames at hnd
    rw [Bool.and_eq_true, List.all_eq_true] at hnd
    rcases List.mem_cons.mp hm with hmx | hmem
    · subst hmx
      exact List.find?_cons_of_pos _ (by simp [hname])
    · by_cases hx : x.name == "ShallowCopy"
      · exfalso
        have h1 := hnd.1 m hmem
        have hxeq : x.name = "ShallowCopy" := by simpa using hx
        rw [hname, hxeq] at h1
        simp at h1
      · rw [List.find?_cons_of_neg _ (by simpa using hx)]
        exact ih hnd.2 hmem

/-- A Named type with pairwise-distinct method names among which a
zero-parameter one-result `ShallowCopy` occurs passes
`hasShallowCopyMethod`. -/
theorem hasShallowCopyMethod_of_declares (n : String) (u : GoType) (ms : List Method)
    (hnd : noDupNames ms = true)
    (h : declaresQualifyingShallowCopy (.named n u ms)) :
    hasShallowCopyMethod (.named n u ms) = true := by
  obtain ⟨m, hm, hname, hp, hr⟩ := h
  simp only [GoType.declaredMethods] at hm
  simp only [hasShallowCopyMethod, lookupShallowCopy]
  rw [find_shallowCopy_of_mem ms m hnd hm hname]
  simp [hp, hr]

/-!
## The claims
-/

/-- Claim C9: for every type whose underlying-type chain reaches a fixed
point (as every chain over this data does: each non-Named variant is its
own underlying type), the alias-chain walk of the classifier terminates —
any iteration budget of at least two yields the same settled `some`
verdict, so no input makes the loop run forever. -/
theorem aliasWalk_terminates (lastType u : GoType) (fuel : Nat) (h : 2 ≤ fuel) :
    aliasWalkFuel fuel lastType u = aliasWalkFuel 2 lastType u ∧
      (aliasWalkFuel 2 lastType u).isSome = true := by
  obtain ⟨k, rfl⟩ : ∃ k, fuel = k + 2 := ⟨fuel - 2, by omega⟩
  refine ⟨aliasWalkFuel_ge2 k lastType u, ?_⟩
  rw [aliasWalkFuel_two]
  by_cases h1 : u = lastType
  · simp [h1]
  · by_cases h2 : hasShallowCopyMethod u = true
    · simp [h1, h2]
    · by_cases h3 : u.isBasic = true <;> simp [h1, h2, h3]

/-- Witness for C9 at a concrete chain and budget. -/
theorem aliasWalk_terminates_witness :
    aliasWalkFuel 7 (GoType.named "T" (.basic "int") []) (GoType.basic "int") =
        aliasWalkFuel 2 (GoType.named "T" (.basic "int") []) (GoType.basic "int") ∧
      (aliasWalkFuel 2 (GoType.named "T" (.basic "int") []) (GoType.basic "int")).isSome =
        true :=
  aliasWalk_terminates (GoType.named "T" (.basic "int") []) (GoType.basic "int") 7
    (by omega)

/-- Claim C3: an unexported type name makes `shouldBeCopied` return
`false` whatever the marker says and whatever the type's structure is —
for any resolved type (Invalid included, since the export gate runs
first), with no error recorded — and the per-type pipeline step emits no
copy specification for it. -/
theorem unexported_never_copied (info : TypeInfo) (h : isExported info.name = false) :
    shouldBeCopied info.name info.resolved = some ([], false) ∧
      generateType info =
        some ⟨(if enabledOnType info.marker then
            [CheckStep.markerCheck, CheckStep.exportCheck]
          else [CheckStep.markerCheck]), [], none⟩ := by
  have hsb : shouldBeCopied info.name info.resolved = some ([], false) := by
    rw [shouldBeCopied.eq_def]
    simp [h]
  refine ⟨hsb, ?_⟩
  rw [generateType]
  by_cases he : enabledOnType info.marker = true
  · simp [he, hsb]
  · simp [he]

/-- Witness for C3: an annotated but unexported struct type. -/
theorem unexported_never_copied_witness :
    shouldBeCopied "foo" (GoType.named "foo" (.struct ["X"]) []) = some ([], false) ∧
      generateType ⟨"foo", some true, GoType.named "foo" (.struct ["X"]) []⟩ =
        some ⟨[CheckStep.markerCheck, CheckStep.exportCheck], [], none⟩ :=
  unexported_never_copied ⟨"foo", some true, GoType.named "foo" (.struct ["X"]) []⟩
    (by decide)

/-- Claim C2 counterexample: `P` is an exported type whose underlying
type is a pointer to the struct `S`.  The classifier keeps the *pointer*
(not the pointee) as the working type (gen.go:167 assigns `asPtr`), a
pointer is neither Named nor Struct, so `P` is ineligible — while `S`
classified directly is eligible.  Eligibility of `P` therefore does not
equal direct eligibility of `S`, and `P` is not eligible. -/
theorem pointer_transparency_counterexample :
    shouldBeCopied "P" (GoType.named "P" (.pointer (.struct ["X"])) []) =
        some ([], false) ∧
      shouldBeCopied "S" (GoType.named "S" (.struct ["X"]) []) = some ([], true) ∧
      shouldBeCopied "P" (GoType.named "P" (.pointer (.struct ["X"])) []) ≠
        shouldBeCopied "S" (GoType.named "S" (.struct ["X"]) []) := by
  refine ⟨by decide, by decide, by decide⟩

/-- Claim C2 (amended): for an exported, annotated type declaration whose
named type's underlying type is a pointer, the classifier substitutes the
pointer itself (not the pointee) as the working type; the pointer is
neither Named nor Struct, so the type is classified ineligible regardless
of the pointee — in particular pointer-to-struct types are not eligible.
-/
theorem pointer_underlying_ineligible (nm n : String) (p : GoType) (ms : List Method)
    (h : isExported nm = true) :
    shouldBeCopied nm (GoType.named n (.pointer p) ms) = some ([], false) := by
  rw [shouldBeCopied.eq_def]
  simp [h, GoType.isStruct]

/-- Witness for the amended C2 at a pointer-to-struct type. -/
theorem pointer_underlying_ineligible_witness :
    shouldBeCopied "P" (GoType.named "P" (.pointer (.struct ["X"])) []) =
      some ([], false) :=
  pointer_underlying_ineligible "P" "P" (.struct ["X"]) [] (by decide)

/-- Claim C7 counterexample: on an annotated (marker `true`) unexported
type both gates run, and the recorded order of consultation is the marker
gate first (gen.go:68), then the export gate (gen.go:73 calling
gen.go:154) — the export gate is *not* consulted strictly before the
marker, contradicting the claimed rule ordering. -/
theorem export_first_counterexample :
    generateType ⟨"foo", some true, GoType.named "foo" (.struct ["X"]) []⟩ =
        some ⟨[CheckStep.markerCheck, CheckStep.exportCheck], [], none⟩ ∧
      checkedBefore [CheckStep.markerCheck, CheckStep.exportCheck]
          CheckStep.exportCheck CheckStep.markerCheck = false ∧
      checkedBefore [CheckStep.markerCheck, CheckStep.exportCheck]
          CheckStep.markerCheck CheckStep.exportCheck = true := by
  refine ⟨by decide, by decide, by decide⟩

/-- Claim C7 (amended): the pipeline consults the enablement marker
strictly before the export status; an annotated-but-unexported type is
nevertheless silently excluded — the export gate returns `false` before
any diagnostic can be recorded, so no error is reported and nothing is
generated. -/
theorem marker_gate_precedes_export_gate (nm : String) (t : GoType)
    (hexp : isExported nm = false) :
    generateType ⟨nm, some true, t⟩ =
      some ⟨[CheckStep.markerCheck, CheckStep.exportCheck], [], none⟩ := by
  have hsb : shouldBeCopied nm t = some ([], false) := by
    rw [shouldBeCopied.eq_def]
    simp [hexp]
  rw [generateType]
  simp [enabledOnType, hsb]

/-- Witness for the amended C7 at an annotated unexported struct type. -/
theorem marker_gate_precedes_export_gate_witness :
    generateType ⟨"foo", some true, GoType.named "foo" (.struct ["X"]) []⟩ =
      some ⟨[CheckStep.markerCheck, CheckStep.exportCheck], [], none⟩ :=
  marker_gate_precedes_export_gate "foo" (GoType.named "foo" (.struct ["X"]) [])
    (by decide)

/-- Claim C10: with the marker absent or present with value `false`, the
enablement check returns `false` and the pipeline skips the type at the
marker gate — no export check, no classification, no error, no field
extraction and no emission request happen for it. -/
theorem disabled_marker_skips_generation (info : TypeInfo)
    (h : info.marker = none ∨ info.marker = some false) :
    enabledOnType info.marker = false ∧
      generateType info = some ⟨[CheckStep.markerCheck], [], none⟩ := by
  have he : enabledOnType info.marker = false := by
    rcases h with h | h <;> rw [h] <;> rfl
  refine ⟨he, ?_⟩
  rw [generateType]
  simp [he]

/-- Witness for C10: an unannotated exported struct type is skipped. -/
theorem disabled_marker_skips_generation_witness :
    enabledOnType (none : Option Bool) = false ∧
      generateType ⟨"User", none, GoType.named "User" (.struct ["ID"]) []⟩ =
        some ⟨[CheckStep.markerCheck], [], none⟩ :=
  disabled_marker_skips_generation
    ⟨"User", none, GoType.named "User" (.struct ["ID"]) []⟩ (Or.inl rfl)

/-- Claim C1: for an exported, annotated named type, if the type itself or
any type reached by successive underlying-type links directly declares a
zero-parameter, one-result `ShallowCopy` method, the classifier returns
`true` — even when the terminal underlying type is not a struct.  The
hypotheses `wfGo` capture what the Go type system guarantees about any
real resolved type: method names are pairwise distinct, and a named type
whose underlying type is a pointer declares no methods (Go rejects
methods whose receiver base type is a pointer type). -/
theorem shouldBeCopied_manual_override (nm n : String) (u : GoType) (ms : List Method)
    (hexp : isExported nm = true)
    (hwf : wfGo (GoType.named n u ms) = true)
    (hman : ∃ c ∈ GoType.chainMembers (GoType.named n u ms),
      declaresQualifyingShallowCopy c) :
    shouldBeCopied nm (GoType.named n u ms) = some ([], true) := by
  simp only [wfGo, Bool.and_eq_true] at hwf
  obtain ⟨⟨hnd, hptr⟩, hwfu⟩ := hwf
  cases u with
  | pointer p =>
    exfalso
    have hms : ms = [] := by simpa using hptr
    subst hms
    obtain ⟨c, hc, m, hm, _⟩ := hman
    simp only [GoType.chainMembers, List.mem_cons, List.not_mem_nil, or_false] at hc
    rcases hc with rfl | rfl
    · simp [GoType.declaredMethods] at hm
    · simp [GoType.declaredMethods] at hm
  | basic b =>
    by_cases hsc : hasShallowCopyMethod (GoType.named n (GoType.basic b) ms) = true
    · rw [shouldBeCopied.eq_def]
      simp [hexp, hsc]
    · exfalso
      obtain ⟨c, hc, hq⟩ := hman
      simp only [GoType.chainMembers, List.mem_cons, List.not_mem_nil, or_false] at hc
      rcases hc with rfl | rfl
      · exact hsc (hasShallowCopyMethod_of_declares n _ ms hnd hq)
      · obtain ⟨m, hm, _⟩ := hq
        simp [GoType.declaredMethods] at hm
  | «struct» fs =>
    rw [shouldBeCopied.eq_def]
    simp only [hexp, Bool.not_true, Bool.false_eq_true, if_false, reduceCtorEq, ite_false]
    by_cases hsc : hasShallowCopyMethod (GoType.named n (GoType.struct fs) ms) = true
    · simp [hsc]
    · simp only [hsc, if_false, Bool.false_eq_true, GoType.underlying]
      rw [aliasWalkFuel_two, if_neg (ne_named_self n ms (GoType.struct fs))]
      simp [hasShallowCopyMethod, lookupShallowCopy, GoType.isBasic]
  | named n2 u2 ms2 =>
    rw [shouldBeCopied.eq_def]
    simp only [hexp, Bool.not_true, Bool.false_eq_true, if_false, reduceCtorEq, ite_false]
    by_cases hsc : hasShallowCopyMethod (GoType.named n (GoType.named n2 u2 ms2) ms) = true
    · simp [hsc]
    · simp only [hsc, if_false, Bool.false_eq_true, GoType.underlying]
      rw [aliasWalkFuel_two, if_neg (ne_named_self n ms (GoType.named n2 u2 ms2))]
      cases hsc2 : hasShallowCopyMethod (GoType.named n2 u2 ms2) <;>
        simp [hsc2, GoType.isBasic]
  | invalid =>
    rw [shouldBeCopied.eq_def]
    simp only [hexp, Bool.not_true, Bool.false_eq_true, if_false, reduceCtorEq, ite_false]
    by_cases hsc : hasShallowCopyMethod (GoType.named n GoType.invalid ms) = true
    · simp [hsc]
    · simp only [hsc, if_false, Bool.false_eq_true, GoType.underlying]
      rw [aliasWalkFuel_two, if_neg (ne_named_self n ms GoType.invalid)]
      simp [hasShallowCopyMethod, lookupShallowCopy, GoType.isBasic]

/-- Witness for C1: an exported type whose terminal underlying type is a
basic type but which declares a qualifying `ShallowCopy` itself. -/
theorem shouldBeCopied_manual_override_witness :
    shouldBeCopied "T" (GoType.named "T" (.basic "int") [⟨"ShallowCopy", 0, 1⟩]) =
      some ([], true) :=
  shouldBeCopied_manual_override "T" "T" (.basic "int") [⟨"ShallowCopy", 0, 1⟩]
    (by decide) (by decide)
    ⟨GoType.named "T" (.basic "int") [⟨"ShallowCopy", 0, 1⟩],
      by simp [GoType.chainMembers],
      ⟨"ShallowCopy", 0, 1⟩, by simp [GoType.declaredMethods], rfl, rfl, rfl⟩

/-- Claim C6: an exported, annotated named type whose underlying chain
consists only of basic types, with no `ShallowCopy` declared anywhere on
the chain (so the terminal is not a struct), is classified ineligible. -/
theorem basic_alias_excluded (nm n : String) (u : GoType) (ms : List Method)
    (hexp : isExported nm = true)
    (hbasic : ∀ c ∈ GoType.chainMembers u, c.isBasic = true)
    (hnosc : ∀ c ∈ GoType.chainMembers (GoType.named n u ms),
      ∀ m ∈ c.declaredMethods, m.name ≠ "ShallowCopy") :
    shouldBeCopied nm (GoType.named n u ms) = some ([], false) := by
  have hu : u.isBasic = true := hbasic u (by cases u <;> simp [GoType.chainMembers])
  cases u with
  | basic b =>
    have hms : ∀ m ∈ ms, m.name ≠ "ShallowCopy" := by
      intro m hm
      exact hnosc (GoType.named n (GoType.basic b) ms)
        (by simp [GoType.chainMembers]) m (by simpa [GoType.declaredMethods] using hm)
    have hsc : hasShallowCopyMethod (GoType.named n (GoType.basic b) ms) = false := by
      have hpred : ∀ x ∈ ms, ¬((x.name == "ShallowCopy") = true) := by
        intro x hx h
        exact hms x hx (by simpa using h)
      simp only [hasShallowCopyMethod, lookupShallowCopy]
      rw [List.find?_eq_none.mpr hpred]
    rw [shouldBeCopied.eq_def]
    simp only [hexp, Bool.not_true, Bool.false_eq_true, if_false, reduceCtorEq, ite_false]
    simp only [hsc, if_false, Bool.false_eq_true, GoType.underlying]
    rw [aliasWalkFuel_two, if_neg (ne_named_self n ms (GoType.basic b))]
    simp [hasShallowCopyMethod, lookupShallowCopy, GoType.isBasic]
  | «struct» fs => simp [GoType.isBasic] at hu
  | pointer p => simp [GoType.isBasic] at hu
  | named n2 u2 ms2 => simp [GoType.isBasic] at hu
  | invalid => simp [GoType.isBasic] at hu

/-- Witness for C6: an exported annotated alias of `int` with no methods.
-/
theorem basic_alias_excluded_witness :
    shouldBeCopied "Count" (GoType.named "Count" (.basic "int") []) =
      some ([], false) :=
  basic_alias_excluded "Count" "Count" (.basic "int") [] (by decide) (by decide)
    (by decide)

/-- Claim C4 counterexample: a struct with fields declared in the order
`B`, `A`.  The emitted composite literal lists `A` before `B` — jennifer
renders the `jen.Dict` sorted by key — so the emitted order is *not* the
declaration order. -/
theorem field_order_counterexample :
    sortKeys ["B", "A"] = ["A", "B"] ∧
      (["A", "B"] : List String) ≠ ["B", "A"] ∧
      emitMethod ⟨"T", ["B", "A"]⟩ ["B", "A"] =
        "func (o T) ShallowCopy() T \x7b\n\treturn T\x7bA: o.A, B: o.B\x7d\n\x7d\n" := by
  refine ⟨by decide, by decide, by decide⟩

/-- Claim C4 (amended): for an eligible struct type the generated
method's composite literal assigns every declared field exactly once, but
in ascending order of field name (jennifer renders `jen.Dict` entries
sorted by the rendered key), not in declaration order; the two coincide
exactly when the declaration order is already sorted, as in `A, B, C`.
The emitted text is independent of the map-iteration order `iter`. -/
theorem emitMethod_literal_sorted (s : copyStructs) (iter : List String)
    (h : List.Perm iter s.Fields) :
    emitMethod s iter = emitMethod s s.Fields ∧
      List.Perm (sortKeys iter) s.Fields ∧
      (sortKeys iter).Pairwise (fun a b => strLe a b = true) := by
  refine ⟨?_, (sortKeys_perm iter).trans h, sortKeys_sorted iter⟩
  unfold emitMethod renderDictEntries
  rw [sortKeys_eq_of_perm h]

/-- Witness for the amended C4 at a two-field struct and a permuted
iteration order. -/
theorem emitMethod_literal_sorted_witness :
    emitMethod ⟨"T", ["B", "A"]⟩ ["A", "B"] = emitMethod ⟨"T", ["B", "A"]⟩ ["B", "A"] ∧
      List.Perm (sortKeys ["A", "B"]) ["B", "A"] ∧
      (sortKeys ["A", "B"]).Pairwise (fun a b => strLe a b = true) :=
  emitMethod_literal_sorted ⟨"T", ["B", "A"]⟩ ["A", "B"] (List.Perm.swap "B" "A" [])

theorem zipWith_emit_eq : ∀ (structs : List copyStructs) (i₁ i₂ : List (List String)),
    List.Forall₂ (fun it s => List.Perm it s.Fields) i₁ structs →
    List.Forall₂ (fun it s => List.Perm it s.Fields) i₂ structs →
    List.zipWith emitMethod structs i₁ = List.zipWith emitMethod structs i₂
  | [], _, _, h₁, h₂ => by cases h₁; cases h₂; rfl
  | s :: rest, _, _, h₁, h₂ => by
    cases h₁ with
    | cons hp₁ ht₁ =>
      cases h₂ with
      | cons hp₂ ht₂ =>
        simp only [List.zipWith]
        congr 1
        · unfold emitMethod renderDictEntries
          rw [sortKeys_eq_of_perm (hp₁.trans hp₂.symm)]
        · exact zipWith_emit_eq rest _ _ ht₁ ht₂

/-- Claim C5: emission is deterministic — for a fixed package name and a
fixed ordered sequence of copy specifications, the emitted file is
byte-identical across invocations: it does not depend on the arbitrary
iteration orders in which the `jen.Dict` maps hand their entries to the
renderer, because rendering sorts each dict by key. -/
theorem emitFile_deterministic (pkg : String) (structs : List copyStructs)
    (iters₁ iters₂ : List (List String))
    (h₁ : List.Forall₂ (fun it s => List.Perm it s.Fields) iters₁ structs)
    (h₂ : List.Forall₂ (fun it s => List.Perm it s.Fields) iters₂ structs) :
    emitFile pkg structs iters₁ = emitFile pkg structs iters₂ := by
  unfold emitFile
  rw [zipWith_emit_eq structs iters₁ iters₂ h₁ h₂]

/-- Witness for C5: the same specification emitted under two different
map-iteration orders. -/
theorem emitFile_deterministic_witness :
    emitFile "example" [⟨"T", ["B", "A"]⟩] [["B", "A"]] =
      emitFile "example" [⟨"T", ["B", "A"]⟩] [["A", "B"]] :=
  emitFile_deterministic "example" [⟨"T", ["B", "A"]⟩] [["B", "A"]] [["A", "B"]]
    (List.Forall₂.cons (List.Perm.refl _) List.Forall₂.nil)
    (List.Forall₂.cons (List.Perm.swap "B" "A" []) List.Forall₂.nil)

/-- Claim C8 (code bug): when the formatter rejects the generated text,
emission is indeed aborted with an error and nothing is written — but the
recorded diagnostic is exactly the formatter's own error value, with the
raw generated text neither attached to it nor written anywhere (gen.go
only does `root.AddError(err); return`, although `writeOut`'s comment
promises writing the unformatted code for debugging).  Two batches with
different raw texts on which the formatter reports the same error produce
identical diagnostics, and the diagnostic does not contain the raw text.
-/
theorem format_failure_drops_raw_text :
    generateUnit (fun _ => Except.error "1:1: expected declaration, found func")
        "example" [⟨"1Bad", ["A"]⟩] [["A"]] =
      ⟨[GenError.formatFailed "1:1: expected declaration, found func"], none⟩ ∧
    generateUnit (fun _ => Except.error "1:1: expected declaration, found func")
        "example" [⟨"2Bad", ["Z"]⟩] [["Z"]] =
      ⟨[GenError.formatFailed "1:1: expected declaration, found func"], none⟩ ∧
    emitFile "example" [⟨"1Bad", ["A"]⟩] [["A"]] ≠
      emitFile "example" [⟨"2Bad", ["Z"]⟩] [["Z"]] ∧
    strContains "1:1: expected declaration, found func"
      (emitFile "example" [⟨"1Bad", ["A"]⟩] [["A"]]) = false := by
  refine ⟨by decide, by decide, by decide, by decide⟩
